import Mathlib

/-!
# Verification of the product-search-app core

A shallow embedding of the repository's core logic:

* `transformRow` and its field parsers (CSV processor, `src/lib/csv-processor.ts`),
* `CSVProcessor.saveSearchIndex` (atomic index persistence),
* `StartupProcessor.ensureSearchIndex` / `shouldRegenerateIndex` / `loadIndex`,
* `SearchEngine.search` / `applyFilters` / `applySorting` / `getSearchSuggestions`.

Modelling conventions:

* JavaScript numbers are modelled as `ℚ`; where `NaN` can arise (the result of
  `parseFloat` on a non-numeric string) the value is an `Option ℚ` with `none`
  standing for `NaN`/`undefined`.  Both `NaN` and `undefined` are falsy and are
  only ever consumed by truthiness tests and `||`-defaulting in the source, so
  this identification is behaviour-preserving.
* `JSON.parse` cannot be implemented over raw strings, so a raw CSV field value
  carries the *outcome* of `JSON.parse(String(field))` alongside the raw data
  (see `RowVal`).  All other string processing (numeric-token extraction,
  `parseFloat`, HTML-tag stripping, splitting, trimming) is implemented
  directly on strings.
* `Array.prototype.sort` is stable (ES2019); it is modelled by
  `List.insertionSort` over the preorder `fun a b => comparator a b ≤ 0`
  induced by the source's comparator, which is exactly the stable order the
  JavaScript engine produces for a consistent comparator.
-/

/-- A JavaScript value as it can appear as the result of `JSON.parse`
(plus `undefined`, used for absent object properties). -/
inductive JSVal where
  | undefined
  | null
  | bool (b : Bool)
  | num (q : ℚ)
  | str (s : String)
  | arr (elems : List JSVal)
  | obj (fields : List (String × JSVal))
deriving Inhabited

namespace JSVal

/-- JavaScript truthiness.  (`NaN` is not representable in `num`; where the
source can produce `NaN` we use `Option` with `none`, which is falsy.) -/
def truthy : JSVal → Bool
  | .undefined => false
  | .null => false
  | .bool b => b
  | .num q => q != 0
  | .str s => s != ""
  | .arr _ => true
  | .obj _ => true

/-- Property access `v[key]`: `undefined` unless `v` is an object with the key. -/
def getField : JSVal → String → JSVal
  | .obj fields, key => ((fields.find? (fun f => f.1 == key)).map (·.2)).getD .undefined
  | _, _ => .undefined

/-- Test `v === undefined` (used for the source's `!== undefined` tests). -/
def isUndef : JSVal → Bool
  | .undefined => true
  | _ => false

/-- Test `typeof v === "object" && v` (objects and arrays; `null` is falsy). -/
def isObjLike : JSVal → Bool
  | .arr _ => true
  | .obj _ => true
  | _ => false

/-- JavaScript `a || b`. -/
def jsOr (a b : JSVal) : JSVal := if a.truthy then a else b

end JSVal

/-- A raw CSV row field as `csv-parse` (with `cast: true`) delivers it:
`undefined`/`null` for absent values, or a boolean, number or string.  A string
field additionally records the outcome of `JSON.parse` on it (`none` when the
parse throws), since a JSON parser is not implemented here; for the non-string
constructors the outcome of `JSON.parse(String(v))` is determined. -/
inductive RowVal where
  | undefined
  | null
  | boolV (b : Bool)
  | numV (q : ℚ)
  | strV (s : String) (parseOutcome : Option JSVal)
deriving Inhabited

namespace RowVal

/-- JavaScript truthiness of a row field. -/
def truthy : RowVal → Bool
  | .undefined => false
  | .null => false
  | .boolV b => b
  | .numV q => q != 0
  | .strV s _ => s != ""

/-- Conversion `String(v)` / `v.toString()`.  (The decimal rendering of numbers is
modelled by `ℚ`'s `toString`; no claim depends on the exact digits.) -/
def toStr : RowVal → String
  | .undefined => "undefined"
  | .null => "null"
  | .boolV b => cond b "true" "false"
  | .numV q => toString q
  | .strV s _ => s

/-- The outcome of `JSON.parse(String(v))`: `none` when it throws.
`String(undefined) = "undefined"` is not valid JSON; numbers and booleans
parse to themselves; for strings the recorded outcome is used. -/
def jsonOutcome : RowVal → Option JSVal
  | .undefined => none
  | .null => some .null
  | .boolV b => some (.bool b)
  | .numV q => some (.num q)
  | .strV _ p => p

/-- JavaScript `a || b` on row fields. -/
def jsOr (a b : RowVal) : RowVal := if a.truthy then a else b

end RowVal

/-! ## Numeric string parsing (`parseFloat` / `parseInt` / the `[\d.]+` regex) -/

/-- Decimal digits of a character list folded to a natural number. -/
def digitsToNat (cs : List Char) : ℕ :=
  cs.foldl (fun n c => 10 * n + (c.toNat - 48)) 0

/-- Leading-sign handling shared by `parseFloat`/`parseInt`: the sign factor
and the remaining characters. -/
def parseSign : List Char → ℚ × List Char
  | '-' :: r => (-1, r)
  | '+' :: r => (1, r)
  | cs => (1, cs)

/-- The fraction-part characters: the digits after a leading `.`. -/
def fracPart : List Char → List Char
  | '.' :: r => r.takeWhile Char.isDigit
  | _ => []

/-- JavaScript `parseFloat`, restricted to the shapes the source feeds it
(an optional sign, then digits with at most one decimal point; exponents are
not produced by the `[\d.]+` token regex).  `none` models `NaN`. -/
def jsParseFloat (s : String) : Option ℚ :=
  let (sgn, cs₁) := parseSign s.data
  let ip := cs₁.takeWhile Char.isDigit
  let fp := fracPart (cs₁.dropWhile Char.isDigit)
  if ip.isEmpty && fp.isEmpty then none
  else some (sgn * ((digitsToNat ip : ℚ) + (digitsToNat fp : ℚ) / 10 ^ fp.length))

/-- JavaScript `parseInt(x, 10)`: optional sign then decimal digits;
`none` models `NaN`. -/
def jsParseInt (s : String) : Option ℤ :=
  let (sgn, cs₁) := parseSign s.data
  let ip := cs₁.takeWhile Char.isDigit
  if ip.isEmpty then none else some ((if sgn < 0 then (-1 : ℤ) else 1) * (digitsToNat ip : ℤ))

/-- A character matched by the regex class `[\d.]`. -/
def isTokChar (c : Char) : Bool := c.isDigit || c == '.'

/-- Single-pass scanner for the regex `/[\d.]+/g`: `acc` holds the characters
of the run in progress, reversed. -/
def extractTokensAux : List Char → List Char → List String
  | [], acc => if acc.isEmpty then [] else [⟨acc.reverse⟩]
  | c :: cs, acc =>
    if isTokChar c then extractTokensAux cs (c :: acc)
    else if acc.isEmpty then extractTokensAux cs []
    else ⟨acc.reverse⟩ :: extractTokensAux cs []

/-- All matches of the regex `/[\d.]+/g`: the maximal runs of digit/dot
characters, in order. -/
def extractTokens (cs : List Char) : List String := extractTokensAux cs []

/-- Character-wise lower-casing (`String.prototype.toLowerCase`, modelled on
code points so that it evaluates by kernel reduction). -/
def jsToLower (s : String) : String := ⟨s.data.map Char.toLower⟩

/-- Character-wise `String.prototype.trim` (whitespace stripped from both
ends). -/
def jsTrim (s : String) : String :=
  ⟨((s.data.dropWhile Char.isWhitespace).reverse.dropWhile Char.isWhitespace).reverse⟩

/-- Character-wise `s.startsWith(pre)`. -/
def jsStartsWith (s pre : String) : Bool := pre.data.isPrefixOf s.data

/-- Character-wise `s.split(",")` (JavaScript semantics: empty pieces kept,
`"" → [""]`); `acc` holds the current piece, reversed. -/
def splitCommaAux : List Char → List Char → List String
  | [], acc => [⟨acc.reverse⟩]
  | c :: cs, acc =>
    if c == ',' then ⟨acc.reverse⟩ :: splitCommaAux cs []
    else splitCommaAux cs (c :: acc)

/-- JavaScript `s.split(",")`. -/
def jsSplitComma (s : String) : List String := splitCommaAux s.data []

/-- JavaScript `parseFloat(v)` on a value: numbers parse to themselves,
strings via `jsParseFloat`; everything else is `NaN` (`none`).
(`parseFloat(String(v))` for non-string `v`; arrays/objects stringify to
non-numeric text in all shapes the source produces.) -/
def jsValParseFloat : JSVal → Option ℚ
  | .num q => some q
  | .str s => jsParseFloat s
  | _ => none

/-! ## The price range parser (`parsePriceRange`, csv-processor lines 146–192) -/

/-- A price range `{min, max}` with `none` modelling `NaN`. -/
structure PriceRange where
  min : Option ℚ
  max : Option ℚ
deriving DecidableEq, Inhabited

/-- The function `parsePriceRange` translated from the source.  The `try` block acts on the
outcome of `JSON.parse(String(priceField))`; the `catch` block extracts the
`[\d.]+` tokens from `priceField.toString()`. -/
def parsePriceRange (priceField : RowVal) : PriceRange :=
  if !priceField.truthy then ⟨some 0, some 0⟩
  else
    match priceField.jsonOutcome with
    | some parsed =>
      if parsed.isObjLike then
        let mvp := parsed.getField "min_variant_price"
        let xvp := parsed.getField "max_variant_price"
        if mvp.truthy && xvp.truthy then
          ⟨jsValParseFloat (JSVal.jsOr (mvp.getField "amount") (.num 0)),
            jsValParseFloat (JSVal.jsOr (xvp.getField "amount") (.num 0))⟩
        else if !(parsed.getField "min").isUndef || !(parsed.getField "max").isUndef then
          ⟨jsValParseFloat (JSVal.jsOr (parsed.getField "min") (.num 0)),
            jsValParseFloat (JSVal.jsOr (parsed.getField "max") (.num 0))⟩
        else if mvp.truthy || xvp.truthy then
          ⟨jsValParseFloat (JSVal.jsOr mvp (.num 0)),
            jsValParseFloat (JSVal.jsOr xvp (.num 0))⟩
        else ⟨some 0, some 0⟩
      else ⟨some 0, some 0⟩
    | none =>
      match extractTokens priceField.toStr.data with
      | [] => ⟨some 0, some 0⟩
      | [t] => ⟨jsParseFloat t, jsParseFloat t⟩
      | t₁ :: t₂ :: _ => ⟨jsParseFloat t₁, jsParseFloat t₂⟩

/-! ## Remaining field parsers (csv-processor lines 139–258) -/

/-- The function `parseImages` (lines 194–210): a parsed JSON array is truncated to
`maxImages`; a parsed JSON string beginning with `http` becomes a singleton;
when `JSON.parse` throws, a raw string beginning with `http` becomes a
singleton; otherwise the empty list.  Elements keep their raw JSON form. -/
def parseImages (imageField : RowVal) (maxImages : ℕ) : List JSVal :=
  if !imageField.truthy then []
  else
    match imageField.jsonOutcome with
    | some (.arr elems) => elems.take maxImages
    | some (.str s) => if jsStartsWith s "http" then [.str s] else []
    | some _ => []
    | none =>
      match imageField with
      | .strV s _ => if jsStartsWith s "http" then [.str s] else []
      | _ => []

/-- The function `parseTags` (lines 212–227): a parsed JSON array verbatim; when the parse
throws, a raw string is split on commas, trimmed and empties dropped;
otherwise the empty list. -/
def parseTags (tagsField : RowVal) : List JSVal :=
  if !tagsField.truthy then []
  else
    match tagsField.jsonOutcome with
    | some (.arr elems) => elems
    | some _ => []
    | none =>
      match tagsField with
      | .strV s _ => ((jsSplitComma s).map jsTrim).filter (fun t => t != "") |>.map .str
      | _ => []

/-- The function `parseInventory` (lines 229–234): `parseInt(x.toString(), 10)`, `NaN → 0`. -/
def parseInventory (inventoryField : RowVal) : ℤ :=
  if !inventoryField.truthy then 0
  else (jsParseInt inventoryField.toStr).getD 0

/-- The function `parseBoolean` (lines 236–241): case-insensitive `"true" | "1" | "yes"`. -/
def parseBoolean (booleanField : RowVal) : Bool :=
  if !booleanField.truthy then false
  else
    let v := jsToLower booleanField.toStr
    v == "true" || v == "1" || v == "yes"

/-- The function `parseFeaturedImage` (lines 243–258): the `url` property of a parsed JSON
object when truthy; when the parse throws, a raw string beginning with `http`;
otherwise the empty string. -/
def parseFeaturedImage (imageField : RowVal) : JSVal :=
  if !imageField.truthy then .str ""
  else
    match imageField.jsonOutcome with
    | some parsed =>
      if parsed.isObjLike && (parsed.getField "url").truthy then parsed.getField "url"
      else .str ""
    | none =>
      match imageField with
      | .strV s _ => if jsStartsWith s "http" then .str s else .str ""
      | _ => .str ""

/-- Single-pass scanner for the regex `/<[^>]*>/g`: `pending = some buf` means
a `<` was seen and `buf` (reversed) holds the tag body so far; if the input
ends before a closing `>`, the regex matches nothing there and the buffered
text is emitted verbatim. -/
def stripHtmlAux : List Char → Option (List Char) → List Char
  | [], none => []
  | [], some buf => '<' :: buf.reverse
  | c :: cs, none => if c == '<' then stripHtmlAux cs (some []) else c :: stripHtmlAux cs none
  | c :: cs, some buf =>
    if c == '>' then stripHtmlAux cs none else stripHtmlAux cs (some (c :: buf))

/-- Strip the matches of `/<[^>]*>/g`: a `<` opens a tag that runs to the next
`>` (inclusive); a `<` with no later `>` matches nothing and is kept. -/
def stripHtml (cs : List Char) : List Char := stripHtmlAux cs none

/-- The function `extractDescription` (lines 139–144): `String(DESCRIPTION || BODY_HTML ||
DESCRIPTION_HTML || "")` with HTML tags stripped. -/
def extractDescription (descF bodyF descHtmlF : RowVal) : String :=
  ⟨stripHtml (RowVal.jsOr descF (RowVal.jsOr bodyF (RowVal.jsOr descHtmlF (.strV "" none)))).toStr.data⟩

/-- The `ProcessingConfig` fields that `transformRow` reads. -/
structure ProcessingConfig where
  maxImages : ℕ
  maxDescriptionLength : ℕ
deriving DecidableEq

/-- The default configuration (`chunkSize`/progress/metrics fields omitted:
`transformRow` does not read them). -/
def defaultConfig : ProcessingConfig := ⟨3, 500⟩

/-- A raw CSV row: the named columns `transformRow` reads.  Absent columns are
`RowVal.undefined`. -/
structure RawRow where
  ID : RowVal := .undefined
  TITLE : RowVal := .undefined
  VENDOR : RowVal := .undefined
  PRODUCT_TYPE : RowVal := .undefined
  DESCRIPTION : RowVal := .undefined
  BODY_HTML : RowVal := .undefined
  DESCRIPTION_HTML : RowVal := .undefined
  HANDLE : RowVal := .undefined
  STATUS : RowVal := .undefined
  PRICE_RANGE_V2 : RowVal := .undefined
  PRICE_RANGE : RowVal := .undefined
  IMAGES : RowVal := .undefined
  IMAGE : RowVal := .undefined
  FEATURED_IMAGE : RowVal := .undefined
  TAGS : RowVal := .undefined
  CREATED_AT : RowVal := .undefined
  UPDATED_AT : RowVal := .undefined
  PUBLISHED_AT : RowVal := .undefined
  TOTAL_INVENTORY : RowVal := .undefined
  HAS_OUT_OF_STOCK_VARIANTS : RowVal := .undefined
  IS_GIFT_CARD : RowVal := .undefined

/-- A `Product` record (`src/lib/types.ts`), restricted to the fields the core
reads/writes.  `price` is optional in the interface and never set by
`transformRow`; `totalInventory`/`hasOutOfStockVariants`/`isGiftCard` are
optional in the interface. -/
structure Product where
  id : String
  title : String
  vendor : String
  productType : String
  description : String
  handle : String
  status : String
  priceRange : PriceRange
  images : List JSVal
  tags : List JSVal
  createdAt : String
  updatedAt : String
  publishedAt : String
  totalInventory : Option ℤ := none
  hasOutOfStockVariants : Option Bool := none
  isGiftCard : Option Bool := none
  featuredImage : JSVal := .str ""
  price : Option ℚ := none

/-- The function `transformRow` (csv-processor lines 99–136).  The `try`/`catch` wrapper is
not modelled: every helper above is total on row values.  `null` is `none`. -/
def transformRow (row : RawRow) (config : ProcessingConfig) : Option Product :=
  if !row.ID.truthy || !row.TITLE.truthy then none
  else
    some {
      id := (RowVal.jsOr row.ID (.strV "" none)).toStr
      title := (RowVal.jsOr row.TITLE (.strV "" none)).toStr
      vendor := (RowVal.jsOr row.VENDOR (.strV "" none)).toStr
      productType := (RowVal.jsOr row.PRODUCT_TYPE (.strV "" none)).toStr
      description :=
        (extractDescription row.DESCRIPTION row.BODY_HTML row.DESCRIPTION_HTML).take
          config.maxDescriptionLength
      handle := (RowVal.jsOr row.HANDLE (.strV "" none)).toStr
      status := (RowVal.jsOr row.STATUS (.strV "active" none)).toStr
      priceRange := parsePriceRange (RowVal.jsOr row.PRICE_RANGE_V2 row.PRICE_RANGE)
      images :=
        parseImages (RowVal.jsOr row.IMAGES (RowVal.jsOr row.IMAGE row.FEATURED_IMAGE))
          config.maxImages
      tags := parseTags row.TAGS
      createdAt := (RowVal.jsOr row.CREATED_AT (.strV "" none)).toStr
      updatedAt := (RowVal.jsOr row.UPDATED_AT (.strV "" none)).toStr
      publishedAt := (RowVal.jsOr row.PUBLISHED_AT (.strV "" none)).toStr
      totalInventory := some (parseInventory row.TOTAL_INVENTORY)
      hasOutOfStockVariants := some (parseBoolean row.HAS_OUT_OF_STOCK_VARIANTS)
      isGiftCard := some (parseBoolean row.IS_GIFT_CARD)
      featuredImage := parseFeaturedImage row.FEATURED_IMAGE
    }

/-! ## The query engine (`src/lib/search-engine.ts`) -/

/-- The `SearchFilters` interface (types.ts): every field optional. -/
structure SearchFilters where
  vendor : Option String := none
  productType : Option String := none
  minPrice : Option ℚ := none
  maxPrice : Option ℚ := none
  inStock : Option Bool := none

/-- Whether `sub` occurs as a contiguous substring of `l` (JavaScript
`String.prototype.includes` on the character lists). -/
def subAt : List Char → List Char → Bool
  | sub, [] => sub.isEmpty
  | sub, c :: cs => sub.isPrefixOf (c :: cs) || subAt sub cs

/-- Case-insensitive substring test:
`s.toLowerCase().includes(sub.toLowerCase())`. -/
def includesCI (s sub : String) : Bool :=
  subAt (jsToLower sub).data (jsToLower s).data

/-- Truthiness of an optional JavaScript number (`undefined`/`NaN` and `0`
are falsy). -/
def truthyQ (o : Option ℚ) : Bool := o.getD 0 != 0

/-- JavaScript `a || b` for an optional number `a` and number `b`. -/
def jsNumOr (a : Option ℚ) (b : ℚ) : ℚ := if truthyQ a then a.getD 0 else b

/-- JavaScript `a || b` for two optional numbers (used by the price-sort
comparators, where both operands can be `undefined`/`NaN`). -/
def jsOrQ (a b : Option ℚ) : Option ℚ := if truthyQ a then a else b

namespace SearchEngine

/-- The method `applyFilters` (search-engine lines 85–128): sequential `Array.filter`
passes, each guarded by the presence (and for the string filters, truthiness)
of the corresponding filter field. -/
def applyFilters (products : List Product) (filters : SearchFilters) : List Product :=
  let f₁ :=
    match filters.vendor with
    | none => products
    | some v =>
      if v == "" then products
      else products.filter (fun p => includesCI p.vendor v)
  let f₂ :=
    match filters.productType with
    | none => f₁
    | some t =>
      if t == "" then f₁
      else f₁.filter (fun p => includesCI p.productType t)
  let f₃ :=
    match filters.minPrice with
    | none => f₂
    | some m => f₂.filter (fun p => m ≤ jsNumOr p.price (jsNumOr p.priceRange.max 0))
  let f₄ :=
    match filters.maxPrice with
    | none => f₃
    | some m => f₃.filter (fun p => jsNumOr p.price (jsNumOr p.priceRange.min 0) ≤ m)
  match filters.inStock with
  | some true =>
    f₄.filter (fun p => 0 < p.totalInventory.getD 0 && !p.hasOutOfStockVariants.getD false)
  | _ => f₄

/-- The operand `a.price || a.priceRange?.min` of the `price-asc` comparator. -/
def priceKeyAsc (p : Product) : Option ℚ := jsOrQ p.price p.priceRange.min

/-- The operand `a.price || a.priceRange?.max` of the `price-desc` comparator. -/
def priceKeyDesc (p : Product) : Option ℚ := jsOrQ p.price p.priceRange.max

/-- The `price-asc` comparator (lines 135–148). -/
def cmpAsc (a b : Product) : ℚ :=
  let pA := priceKeyAsc a
  let pB := priceKeyAsc b
  if !truthyQ pA && !truthyQ pB then 0
  else if !truthyQ pA then 1
  else if !truthyQ pB then -1
  else pA.getD 0 - pB.getD 0

/-- The `price-desc` comparator (lines 151–164). -/
def cmpDesc (a b : Product) : ℚ :=
  let pA := priceKeyDesc a
  let pB := priceKeyDesc b
  if !truthyQ pA && !truthyQ pB then 0
  else if !truthyQ pA then 1
  else if !truthyQ pB then -1
  else pB.getD 0 - pA.getD 0

/-- The preorder induced by the `price-asc` comparator (`cmpAsc a b ≤ 0`). -/
def ascRel (a b : Product) : Prop := cmpAsc a b ≤ 0

/-- The preorder induced by the `price-desc` comparator (`cmpDesc a b ≤ 0`). -/
def descRel (a b : Product) : Prop := cmpDesc a b ≤ 0

instance : DecidableRel ascRel := fun _ _ => inferInstanceAs (Decidable (_ ≤ _))
instance : DecidableRel descRel := fun _ _ => inferInstanceAs (Decidable (_ ≤ _))

/-- The sort keys of `search`. -/
inductive SortBy where
  | relevance
  | priceAsc
  | priceDesc
  | nameAsc
  | nameDesc
  | newest
deriving DecidableEq

/-- The method `applySorting` (lines 130–182).  `[...products].sort(cmp)` with a
consistent comparator is the stable sort by `fun a b => cmp a b ≤ 0`.
`localeCompare` is modelled as code-point comparison and
`new Date(s).getTime()` as an arbitrary date-valuation `dateVal` (neither is
exercised by any claim). -/
def applySorting (dateVal : String → ℤ) (products : List Product) (sortBy : SortBy) :
    List Product :=
  match sortBy with
  | .priceAsc => products.insertionSort ascRel
  | .priceDesc => products.insertionSort descRel
  | .nameAsc => products.insertionSort (fun a b => a.title ≤ b.title)
  | .nameDesc => products.insertionSort (fun a b => b.title ≤ a.title)
  | .newest => products.insertionSort (fun a b => dateVal b.createdAt ≤ dateVal a.createdAt)
  | .relevance => products

/-- The `SearchResult` interface (types.ts). -/
structure SearchResult where
  products : List Product
  total : ℕ
  page : ℕ
  limit : ℕ
  totalPages : ℕ
  processingTime : ℕ

end SearchEngine

/-- The engine state: the stored collection plus the Fuse.js matcher built
from it at construction.  Fuse.js is an external library; it is abstracted as
a pure function from the query to the scored candidate list
(`this.fuse.search(query).map(r => r.item)`). -/
structure SearchEngine where
  products : List Product
  fuse : String → List Product

namespace SearchEngine

/-- The method `search` (lines 34–83).  `page`/`limit` are taken ≥ 1 as in every caller
(`Math.ceil` and negative-index `slice` are otherwise not `ℕ`-representable);
`elapsed` stands for the measured wall-clock duration. -/
def search (e : SearchEngine) (dateVal : String → ℤ) (query : String)
    (filters : SearchFilters) (page limit : ℕ) (sortBy : SortBy) (elapsed : ℕ) :
    SearchResult :=
  let results := if jsTrim query == "" then e.products else e.fuse query
  let results := applyFilters results filters
  let results := applySorting dateVal results sortBy
  let total := results.length
  let totalPages := (total + limit - 1) / limit
  let startIndex := (page - 1) * limit
  let paginated := (results.drop startIndex).take limit
  ⟨paginated, total, page, limit, totalPages, elapsed⟩

/-- One `search` call together with the engine state it leaves behind:
`search` never reassigns `this.products` (and `applySorting` sorts a copy),
so the state is returned unchanged. -/
def searchStep (e : SearchEngine) (dateVal : String → ℤ) (query : String)
    (filters : SearchFilters) (page limit : ℕ) (sortBy : SortBy) (elapsed : ℕ) :
    SearchResult × SearchEngine :=
  (e.search dateVal query filters page limit sortBy elapsed, e)

/-- The arguments of one `search` call. -/
structure SearchCall where
  query : String
  filters : SearchFilters
  page : ℕ
  limit : ℕ
  sortBy : SortBy
  elapsed : ℕ

/-- The engine state after a sequence of `search` calls. -/
def runSearches (e : SearchEngine) (dateVal : String → ℤ) : List SearchCall → SearchEngine
  | [] => e
  | c :: cs =>
    runSearches (e.searchStep dateVal c.query c.filters c.page c.limit c.sortBy c.elapsed).2
      dateVal cs

/-- Order-preserving first-occurrence deduplication (a JavaScript `Set`
accumulated by insertion, then `Array.from`). -/
def dedupFirst (seen : List String) : List String → List String
  | [] => []
  | x :: xs => if x ∈ seen then dedupFirst seen xs else x :: dedupFirst (x :: seen) xs

/-- The method `getSearchSuggestions` (lines 232–263): titles, then vendors, then product
types whose lowercase form contains the lowercase query, deduplicated in
insertion order, capped at `limit`. -/
def getSearchSuggestions (e : SearchEngine) (query : String) (limit : ℕ) : List String :=
  if jsTrim query == "" || query.length < 2 then []
  else
    let candidates :=
      ((e.products.filter (fun p => includesCI p.title query)).map Product.title) ++
        ((e.products.filter (fun p => includesCI p.vendor query)).map Product.vendor) ++
        ((e.products.filter (fun p => includesCI p.productType query)).map Product.productType)
    (dedupFirst [] candidates).take limit

end SearchEngine

/-! ## Index persistence (`CSVProcessor.saveSearchIndex`, csv-processor
lines 390–504) -/

/-- The `ProcessingMetadata` interface. -/
structure ProcessingMetadata where
  totalProducts : ℕ
  vendors : List String
  productTypes : List String
  processedAt : String

/-- The serialized search index `{ products, metadata }`. -/
structure IndexArtifact where
  products : List Product
  metadata : ProcessingMetadata

/-- The contents of the four index files; `none` = the file does not exist. -/
structure FsState where
  canonical : Option IndexArtifact
  backup : Option IndexArtifact
  old : Option IndexArtifact
  temp : Option IndexArtifact

/-- What re-reading the freshly written temp file yields: the written
artifact, an I/O or JSON-parse error, or (disk corruption) some other JSON
value of which only the `products`-is-an-array test matters. -/
inductive ReadBack where
  | ok
  | ioError
  | corrupt (productsIsArray : Bool)
deriving DecidableEq

/-- A failure-injection schedule for one `saveSearchIndex` run: which of the
fallible filesystem operations fail, in the order the source performs them. -/
structure PersistEnv where
  failBackupCopy : Bool := false
  failWriteTemp : Bool := false
  readTemp : ReadBack := .ok
  failRename : Bool := false
  failUnlinkOld : Bool := false
  failRotate : Bool := false
  failStat : Bool := false
  failCleanupUnlink : Bool := false
  failRestore : Bool := false

/-- The errors `saveSearchIndex` can raise. -/
inductive PersistError where
  | backupCopyFailed
  | writeTempFailed
  | readTempFailed
  | invalidIndex
  | renameFailed
  | unlinkOldFailed
  | rotateFailed
  | statFailed
deriving DecidableEq

/-- The `catch` block (lines 478–503): best-effort `unlink(temp)` if it
exists; if `backup` exists and `canonical` does not, best-effort
`copyFile(backup, canonical)`; rethrow the original error. -/
def persistCatch (e : PersistError) (s : FsState) (env : PersistEnv) :
    Except PersistError Unit × FsState :=
  let s₁ :=
    if s.temp.isSome then
      if env.failCleanupUnlink then s else { s with temp := none }
    else s
  let s₂ :=
    if s₁.backup.isSome && s₁.canonical.isNone then
      if env.failRestore then s₁ else { s₁ with canonical := s₁.backup }
    else s₁
  (.error e, s₂)

/-- The method `saveSearchIndex` (lines 390–504) in development mode (the
`isProduction` early return skips everything and is handled by the caller of
this model).  Step numbering follows the source comments. -/
def saveSearchIndex (s : FsState) (env : PersistEnv) (art : IndexArtifact) :
    Except PersistError Unit × FsState :=
  -- Step 1: back up the existing canonical file.
  if s.canonical.isSome && env.failBackupCopy then
    persistCatch .backupCopyFailed s env
  else
    let s₁ := if s.canonical.isSome then { s with backup := s.canonical } else s
    -- Step 2: write the new index to the temp file.
    if env.failWriteTemp then persistCatch .writeTempFailed s₁ env
    else
      let s₂ := { s₁ with temp := some art }
      -- Step 3: re-read and validate the temp file.  The source accepts any
      -- readback whose `products` property is an array (an empty array is
      -- truthy in JavaScript and passes; `metadata` is not inspected).
      match env.readTemp with
      | .ioError => persistCatch .readTempFailed s₂ env
      | .corrupt false => persistCatch .invalidIndex s₂ env
      | _ =>
        -- Step 4: atomic rename of temp over canonical.
        if env.failRename then persistCatch .renameFailed s₂ env
        else
          let s₃ := { s₂ with canonical := some art, temp := none }
          -- Step 5: rotate backups.
          if s₃.backup.isSome && s₃.old.isSome && env.failUnlinkOld then
            persistCatch .unlinkOldFailed s₃ env
          else
            let s₄ :=
              if s₃.backup.isSome && s₃.old.isSome then { s₃ with old := none } else s₃
            if s₄.backup.isSome && env.failRotate then persistCatch .rotateFailed s₄ env
            else
              let s₅ :=
                if s₄.backup.isSome then { s₄ with old := s₄.backup, backup := none }
                else s₄
              -- `statSync` for the size metric.
              if env.failStat then persistCatch .statFailed s₅ env
              else (.ok (), s₅)

/-! ## Startup staleness resolution (`src/lib/startup-processor.ts`) -/

/-- The on-disk state of the index file as `loadIndex` sees it: missing,
unreadable/unparsable/invalid, or valid in either accepted format. -/
inductive IndexFileContent where
  | missing
  | invalid
  | validArr (products : List Product)
  | validObj (products : List Product)

/-- The environment `shouldRegenerateIndex`/`loadIndex` observe.  Times are
in milliseconds. -/
structure StartupEnv where
  csvExists : Bool
  indexFile : IndexFileContent
  csvMtime : ℕ
  indexMtime : ℕ
  now : ℕ
  indexSize : ℕ

/-- Whether `existsSync(indexPath)` holds. -/
def StartupEnv.indexExists (env : StartupEnv) : Bool :=
  match env.indexFile with
  | .missing => false
  | _ => true

/-- The startup errors. -/
inductive StartupError where
  | loadFailed
  | generateFailed
deriving DecidableEq

/-- The method `loadIndex` (startup-processor lines 202–219): read and parse the index
file, accepting a bare array or an object with a `products` array; anything
else throws. -/
def loadIndex (env : StartupEnv) : Except StartupError (List Product) :=
  match env.indexFile with
  | .missing => .error .loadFailed
  | .invalid => .error .loadFailed
  | .validArr ps => .ok ps
  | .validObj ps => .ok ps

/-- The method `shouldRegenerateIndex` (lines 109–157).  The filesystem is modelled as
reliable, so the `catch`-on-stat branch (regenerate on stat error) does not
arise. -/
def shouldRegenerateIndex (env : StartupEnv) (maxAgeHours : ℕ) : Bool :=
  if !env.csvExists then false
  else if !env.indexExists then true
  else if env.indexMtime < env.csvMtime then true
  else if maxAgeHours * 3600000 < env.now - env.indexMtime then true
  else if env.indexSize < 1000 then true
  else false

/-- The decision `ensureSearchIndex` reaches. -/
inductive ResolveDecision where
  | readOnlyLoad
  | rebuild
  | loadExisting
deriving DecidableEq

/-- The branch structure of `ensureSearchIndex` (lines 53–104): production
(read-only) mode always loads; otherwise `forceRegenerate ||
shouldRegenerateIndex()` decides between rebuilding and loading. -/
def codeResolve (readOnly force : Bool) (env : StartupEnv) (maxAgeHours : ℕ) :
    ResolveDecision :=
  if readOnly then .readOnlyLoad
  else if force || shouldRegenerateIndex env maxAgeHours then .rebuild
  else .loadExisting

/-- The method `ensureSearchIndex` (lines 53–104).  `genResult` stands for the outcome
of `generateIndex()` followed by re-loading the freshly written index; the
returned `Bool` records whether a rebuild ran. -/
def ensureSearchIndex (readOnly force : Bool) (env : StartupEnv) (maxAgeHours : ℕ)
    (genResult : Except StartupError (List Product)) :
    Except StartupError (List Product × Bool) :=
  if readOnly then (loadIndex env).map (·, false)
  else if force || shouldRegenerateIndex env maxAgeHours then
    match genResult with
    | .error e => .error e
    | .ok ps => .ok (ps, true)
  else (loadIndex env).map (·, false)

/-! ## Fixtures -/

/-- The four mock products of the engine test suite (ids 1–4). -/
def mp1 : Product :=
  { id := "1", title := "iPhone 14 Pro", vendor := "Apple", productType := "Smartphone",
    description := "Latest iPhone with advanced camera system", handle := "iphone-14-pro",
    status := "active", priceRange := ⟨some 999, some 1199⟩, images := [.str "iphone1.jpg"],
    tags := [.str "electronics", .str "phone", .str "apple"], createdAt := "2023-01-01",
    updatedAt := "2023-01-02", publishedAt := "2023-01-03", totalInventory := some 50,
    hasOutOfStockVariants := some false, isGiftCard := some false }

/-- Second fixture (out of stock). -/
def mp2 : Product :=
  { id := "2", title := "Samsung Galaxy S23", vendor := "Samsung", productType := "Smartphone",
    description := "Flagship Android phone with excellent display",
    handle := "samsung-galaxy-s23", status := "active", priceRange := ⟨some 799, some 999⟩,
    images := [.str "samsung1.jpg"], tags := [.str "electronics", .str "phone", .str "android"],
    createdAt := "2023-02-01", updatedAt := "2023-02-02", publishedAt := "2023-02-03",
    totalInventory := some 0, hasOutOfStockVariants := some true, isGiftCard := some false }

/-- Third fixture. -/
def mp3 : Product :=
  { id := "3", title := "MacBook Pro 16", vendor := "Apple", productType := "Laptop",
    description := "Professional laptop for creative work", handle := "macbook-pro-16",
    status := "active", priceRange := ⟨some 2499, some 3999⟩, images := [.str "macbook1.jpg"],
    tags := [.str "electronics", .str "laptop", .str "apple"], createdAt := "2023-03-01",
    updatedAt := "2023-03-02", publishedAt := "2023-03-03", totalInventory := some 25,
    hasOutOfStockVariants := some false, isGiftCard := some false }

/-- Fourth fixture. -/
def mp4 : Product :=
  { id := "4", title := "Gift Card 50", vendor := "Store", productType := "Gift Card",
    description := "Digital gift card for online purchases", handle := "gift-card-50",
    status := "active", priceRange := ⟨some 50, some 50⟩, images := [],
    tags := [.str "gift", .str "digital"], createdAt := "2023-04-01",
    updatedAt := "2023-04-02", publishedAt := "2023-04-03", totalInventory := some 100,
    hasOutOfStockVariants := some false, isGiftCard := some true }

/-- An engine over the four fixtures (the fuzzy matcher is irrelevant to the
claims and is the empty oracle). -/
def mockEngine : SearchEngine := ⟨[mp1, mp2, mp3, mp4], fun _ => []⟩

/-- A date valuation for `applySorting .newest` when none is relevant. -/
def dv0 : String → ℤ := fun _ => 0

/-- A row whose identifier is the number `0`: present and stringifying to the
non-empty `"0"`, but falsy in JavaScript. -/
def zeroIdRow : RawRow := { ID := .numV 0, TITLE := .strV "Widget" none }

/-- A row with a valid id/title whose optional fields are all unparsable
garbage. -/
def garbageRow : RawRow :=
  { ID := .strV "8" none, TITLE := .strV "Widget" none,
    PRICE_RANGE := .strV "garbage" none, IMAGES := .strV "notaurl" none,
    TOTAL_INVENTORY := .strV "abc" none,
    HAS_OUT_OF_STOCK_VARIANTS := .strV "maybe" none }

/-- The claim's reading of "missing/empty" for an identifier or title field:
absent (`undefined`/`null`) or stringifying to the empty string. -/
def missingOrEmptyR (v : RowVal) : Bool :=
  match v with
  | .undefined => true
  | .null => true
  | v => v.toStr == ""

/-! ## C1: row rejection in `transformRow` -/

/-- C1 (amended): `transformRow` returns `null` exactly when the `ID` or
`TITLE` field is *falsy* in the JavaScript sense (missing, `null`, empty
string, numeric `0` or `false`), and every row with truthy `ID` and `TITLE`
produces a record carrying that id and title (unparsable optional fields
degrade to their defaults — exercised concretely by the witness). -/
theorem transformRow_rejects_iff_falsy :
    ∀ (row : RawRow) (config : ProcessingConfig),
      (transformRow row config = none ↔
        row.ID.truthy = false ∨ row.TITLE.truthy = false) ∧
      (row.ID.truthy = true → row.TITLE.truthy = true →
        ∃ p, transformRow row config = some p ∧
          p.id = row.ID.toStr ∧ p.title = row.TITLE.toStr) := by
  intro row config
  constructor
  · unfold transformRow
    by_cases hI : row.ID.truthy <;> by_cases hT : row.TITLE.truthy <;>
      simp [hI, hT]
  · intro hI hT
    unfold transformRow
    simp only [hI, hT, Bool.not_true, Bool.or_self, Bool.false_or, if_false]
    exact ⟨_, rfl, by simp [RowVal.jsOr, hI], by simp [RowVal.jsOr, hT]⟩

/-- Witness for C1 at concrete rows: `garbageRow` is accepted with every
optional field degraded to its default (`{0,0}` price range, no images, no
tags, zero inventory, `false` flags). -/
theorem transformRow_rejects_iff_falsy_witness :
    (RawRow.ID garbageRow).truthy = true ∧
    (∃ p, transformRow garbageRow defaultConfig = some p ∧
      p.id = (RawRow.ID garbageRow).toStr ∧ p.title = (RawRow.TITLE garbageRow).toStr) ∧
    (transformRow garbageRow defaultConfig).map Product.priceRange = some ⟨some 0, some 0⟩ ∧
    (transformRow garbageRow defaultConfig).map (fun p => p.images.length) = some 0 ∧
    (transformRow garbageRow defaultConfig).map (fun p => p.tags.length) = some 0 ∧
    (transformRow garbageRow defaultConfig).map Product.totalInventory = some (some 0) ∧
    (transformRow garbageRow defaultConfig).map Product.hasOutOfStockVariants =
      some (some false) ∧
    (transformRow garbageRow defaultConfig).map Product.isGiftCard = some (some false) :=
  ⟨by decide,
    (transformRow_rejects_iff_falsy garbageRow defaultConfig).2 (by decide) (by decide),
    by decide, by decide, by decide, by decide, by decide, by decide⟩

/-- Counterexample to C1 as stated: the row `{ID: 0, TITLE: "Widget"}` has an
identifier that is neither missing nor empty (it stringifies to `"0"`), yet
`transformRow` rejects it, because the source tests JavaScript truthiness
(`!row.ID`), not presence/emptiness. -/
theorem transformRow_rejects_zero_id :
    (transformRow zeroIdRow defaultConfig).isNone = true ∧
    missingOrEmptyR (RawRow.ID zeroIdRow) = false ∧
    missingOrEmptyR (RawRow.TITLE zeroIdRow) = false := by
  decide

/-! ## C4/C5: `parsePriceRange` -/

/-- Character content of the scanner's tokens: every character of every token
matched by `/[\d.]+/g` is a digit or a dot. -/
theorem extractTokensAux_chars (cs : List Char) :
    ∀ acc, (∀ c ∈ acc, isTokChar c = true) →
      ∀ t ∈ extractTokensAux cs acc, ∀ c ∈ t.data, isTokChar c = true := by
  induction cs with
  | nil =>
    intro acc hacc t ht c hc
    unfold extractTokensAux at ht
    by_cases h : acc.isEmpty <;> simp [h] at ht
    subst ht
    simp only [String.data] at hc
    exact hacc c (List.mem_reverse.mp hc)
  | cons d ds ih =>
    intro acc hacc t ht c hc
    unfold extractTokensAux at ht
    by_cases hd : isTokChar d
    · rw [if_pos hd] at ht
      refine ih (d :: acc) ?_ t ht c hc
      intro x hx
      rcases List.mem_cons.mp hx with rfl | hx
      · exact hd
      · exact hacc x hx
    · rw [if_neg hd] at ht
      by_cases ha : acc.isEmpty
      · rw [if_pos ha] at ht
        exact ih [] (by simp) t ht c hc
      · rw [if_neg ha] at ht
        rcases List.mem_cons.mp ht with rfl | ht
        · simp only [String.data] at hc
          exact hacc c (List.mem_reverse.mp hc)
        · exact ih [] (by simp) t ht c hc

/-- The sign parser is the identity (sign `1`) when the first character is
not a sign character. -/
theorem parseSign_of_ne {c : Char} (r : List Char) (hm : c ≠ '-') (hp : c ≠ '+') :
    parseSign (c :: r) = (1, c :: r) := by
  unfold parseSign
  split
  · rename_i heq
    rw [List.cons.injEq] at heq
    exact absurd heq.1 hm
  · rename_i heq
    rw [List.cons.injEq] at heq
    exact absurd heq.1 hp
  · rfl

/-- A token whose characters are all digits or dots, when `parseFloat`
succeeds, has a nonnegative value (no sign character can occur). -/
theorem jsParseFloat_tok_nonneg (t : String) (htok : ∀ c ∈ t.data, isTokChar c = true)
    (q : ℚ) (hq : jsParseFloat t = some q) : 0 ≤ q := by
  unfold jsParseFloat at hq
  rcases hd : t.data with _ | ⟨c, r⟩ <;> rw [hd] at hq
  · simp [parseSign, fracPart] at hq
  · have hc : isTokChar c := htok c (by rw [hd]; exact List.mem_cons_self ..)
    have hcm : c ≠ '-' := by rintro rfl; simp [isTokChar] at hc
    have hcp : c ≠ '+' := by rintro rfl; simp [isTokChar] at hc
    rw [parseSign_of_ne r hcm hcp] at hq
    simp only [] at hq
    split at hq
    · simp at hq
    · rw [Option.some.injEq] at hq
      subst hq
      have h1 : (0 : ℚ) ≤ (digitsToNat ((c :: r).takeWhile Char.isDigit) : ℚ) :=
        Nat.cast_nonneg _
      have h2 : (0 : ℚ) ≤
          (digitsToNat (fracPart ((c :: r).dropWhile Char.isDigit)) : ℚ) /
            10 ^ (fracPart ((c :: r).dropWhile Char.isDigit)).length := by
        positivity
      nlinarith

/-- The Shopify-format object `{min_variant_price: {amount: a}, max_variant_price: {amount: b}}`. -/
def shopifyObj (a b : ℚ) : JSVal :=
  .obj [("min_variant_price", .obj [("amount", .num a)]),
    ("max_variant_price", .obj [("amount", .num b)])]

/-- The simple-format object `{min: m, max: M}`. -/
def minMaxObj (m M : ℚ) : JSVal := .obj [("min", .num m), ("max", .num M)]

/-- Branch equation: the Shopify nested-amount format. -/
theorem parsePriceRange_eq_shopify (s : String) (a₁ a₂ : ℚ) (hs : s ≠ "") :
    parsePriceRange (.strV s (some (shopifyObj a₁ a₂))) = ⟨some a₁, some a₂⟩ := by
  have hs' : (s != "") = true := by simp [hs]
  unfold parsePriceRange
  simp only [RowVal.truthy, hs', Bool.not_true, Bool.false_eq_true, if_false,
    RowVal.jsonOutcome, shopifyObj, JSVal.isObjLike, JSVal.getField, List.find?,
    JSVal.truthy, JSVal.jsOr, jsValParseFloat]
  by_cases h1 : a₁ = 0 <;> by_cases h2 : a₂ = 0 <;>
    simp [h1, h2, JSVal.truthy, jsValParseFloat]

/-- Branch equation: the simple `{min, max}` format. -/
theorem parsePriceRange_eq_minMax (s : String) (m M : ℚ) (hs : s ≠ "") :
    parsePriceRange (.strV s (some (minMaxObj m M))) = ⟨some m, some M⟩ := by
  have hs' : (s != "") = true := by simp [hs]
  unfold parsePriceRange
  simp only [RowVal.truthy, hs', Bool.not_true, Bool.false_eq_true, if_false,
    RowVal.jsonOutcome, minMaxObj, JSVal.isObjLike, JSVal.getField, List.find?,
    JSVal.truthy, JSVal.isUndef, JSVal.jsOr, jsValParseFloat]
  by_cases h1 : m = 0 <;> by_cases h2 : M = 0 <;>
    simp [h1, h2, JSVal.truthy, jsValParseFloat]

/-- Branch equation: the legacy flat `min_variant_price` format. -/
theorem parsePriceRange_eq_legacy (s : String) (m : ℚ) (hs : s ≠ "") (hm : m ≠ 0) :
    parsePriceRange (.strV s (some (.obj [("min_variant_price", .num m)]))) =
      ⟨some m, some 0⟩ := by
  have hs' : (s != "") = true := by simp [hs]
  have hm' : (m != 0) = true := by simp [hm]
  unfold parsePriceRange
  simp only [RowVal.truthy, hs', Bool.not_true, Bool.false_eq_true, if_false,
    RowVal.jsonOutcome, JSVal.isObjLike, JSVal.getField, List.find?,
    JSVal.truthy, JSVal.isUndef, JSVal.jsOr, jsValParseFloat]
  simp [hm', hm, jsValParseFloat, JSVal.truthy]

/-- Branch equation: free text dispatches on the extracted token list. -/
theorem parsePriceRange_eq_tokens (s : String) (hs : s ≠ "") :
    parsePriceRange (.strV s none) =
      (match extractTokens s.data with
        | [] => ⟨some 0, some 0⟩
        | [t] => ⟨jsParseFloat t, jsParseFloat t⟩
        | t₁ :: t₂ :: _ => ⟨jsParseFloat t₁, jsParseFloat t₂⟩) := by
  have hs' : (s != "") = true := by simp [hs]
  unfold parsePriceRange
  simp only [RowVal.truthy, hs', Bool.not_true, Bool.false_eq_true, if_false,
    RowVal.jsonOutcome, RowVal.toStr]

/-- Branch equation: a falsy price field. -/
theorem parsePriceRange_eq_falsy (v : RowVal) (hv : v.truthy = false) :
    parsePriceRange v = ⟨some 0, some 0⟩ := by
  unfold parsePriceRange
  simp [hv]

/-- Branch equation: a parsed value matching no structured arm. -/
theorem parsePriceRange_eq_noMatch (s : String) (v : JSVal) (hs : s ≠ "")
    (h1 : (v.getField "min_variant_price").truthy = false)
    (h2 : (v.getField "max_variant_price").truthy = false)
    (h3 : (v.getField "min").isUndef = true) (h4 : (v.getField "max").isUndef = true) :
    parsePriceRange (.strV s (some v)) = ⟨some 0, some 0⟩ := by
  have hs' : (s != "") = true := by simp [hs]
  unfold parsePriceRange
  rcases v with _ | _ | b | q | s' | elems | fields <;>
    simp_all [RowVal.truthy, RowVal.jsonOutcome, JSVal.isObjLike, JSVal.isUndef,
      JSVal.truthy]

/-- C4 (amended): the attempt chain of `parsePriceRange`, including the
fourth, "legacy" arm the claim omits.  In order: (a) an object with truthy
`min_variant_price` *and* `max_variant_price` yields the two `amount`s; (b)
else an object with a `min` or `max` property yields `{min, max}`; (c) else
an object with a truthy `min_variant_price` or `max_variant_price` yields
those values directly (legacy flat format); free text — a string on which
`JSON.parse` throws — yields the first two numeric tokens, a single token
duplicated; a falsy field, a parsed non-object, or an object matching no arm
yields `{0,0}`. -/
theorem parsePriceRange_formats :
    (∀ (s : String) (a₁ a₂ : ℚ), s ≠ "" →
      parsePriceRange (.strV s (some (shopifyObj a₁ a₂))) = ⟨some a₁, some a₂⟩) ∧
    (∀ (s : String) (m M : ℚ), s ≠ "" →
      parsePriceRange (.strV s (some (minMaxObj m M))) = ⟨some m, some M⟩) ∧
    (∀ (s : String) (m : ℚ), s ≠ "" → m ≠ 0 →
      parsePriceRange (.strV s (some (.obj [("min_variant_price", .num m)]))) =
        ⟨some m, some 0⟩) ∧
    (∀ s : String, s ≠ "" → extractTokens s.data = [] →
      parsePriceRange (.strV s none) = ⟨some 0, some 0⟩) ∧
    (∀ (s : String) (t : String), s ≠ "" → extractTokens s.data = [t] →
      parsePriceRange (.strV s none) = ⟨jsParseFloat t, jsParseFloat t⟩) ∧
    (∀ (s t₁ t₂ : String) (ts : List String), s ≠ "" →
      extractTokens s.data = t₁ :: t₂ :: ts →
      parsePriceRange (.strV s none) = ⟨jsParseFloat t₁, jsParseFloat t₂⟩) ∧
    (∀ v : RowVal, v.truthy = false → parsePriceRange v = ⟨some 0, some 0⟩) ∧
    (∀ (s : String) (v : JSVal), s ≠ "" →
      (v.getField "min_variant_price").truthy = false →
      (v.getField "max_variant_price").truthy = false →
      (v.getField "min").isUndef = true → (v.getField "max").isUndef = true →
      parsePriceRange (.strV s (some v)) = ⟨some 0, some 0⟩) := by
  refine ⟨parsePriceRange_eq_shopify, parsePriceRange_eq_minMax,
    parsePriceRange_eq_legacy, ?_, ?_, ?_, parsePriceRange_eq_falsy,
    parsePriceRange_eq_noMatch⟩
  · intro s hs htok
    rw [parsePriceRange_eq_tokens s hs, htok]
  · intro s t hs htok
    rw [parsePriceRange_eq_tokens s hs, htok]
  · intro s t₁ t₂ ts hs htok
    rw [parsePriceRange_eq_tokens s hs, htok]

/-- Witness for C4 at concrete inputs: the Shopify format, the `{min,max}`
format, the legacy flat format, and a free-text field with two tokens. -/
theorem parsePriceRange_formats_witness :
    parsePriceRange (.strV "pr" (some (shopifyObj (37/2) 20))) = ⟨some (37/2), some 20⟩ ∧
    parsePriceRange (.strV "pr" (some (minMaxObj (37/2) (37/2)))) =
      ⟨some (37/2), some (37/2)⟩ ∧
    parsePriceRange (.strV "pr" (some (.obj [("min_variant_price", .num 7)]))) =
      ⟨some 7, some 0⟩ ∧
    parsePriceRange (.strV "12.50 - 20" none) = ⟨some (25/2), some 20⟩ :=
  ⟨(parsePriceRange_formats.1 "pr" (37/2) 20 (by decide)),
    (parsePriceRange_formats.2.1 "pr" (37/2) (37/2) (by decide)),
    (parsePriceRange_formats.2.2.1 "pr" 7 (by decide) (by norm_num)),
    by
      have h := parsePriceRange_formats.2.2.2.2.2.1 "12.50 - 20" "12.50" "20" []
        (by decide) (by decide)
      rw [h]
      have h1 : jsParseFloat "12.50" = some (25 / 2) := by
        simp +decide [jsParseFloat, parseSign, fracPart, digitsToNat]
        norm_num
      have h2 : jsParseFloat "20" = some 20 := by
        simp +decide [jsParseFloat, parseSign, fracPart, digitsToNat]
      rw [h1, h2]⟩

/-- Counterexample to C4 as stated: the JSON object `{min_variant_price: 7}`
matches none of the claim's three formats — format (a) needs both nested
fields truthy, format (b) needs a `min`/`max` property, and format (c) needs
`JSON.parse` to throw — so by the claim the result should be the total-failure
value `{0,0}`; the source's legacy arm returns `{7,0}` instead. -/
theorem parsePriceRange_legacy_cex :
    parsePriceRange (.strV "pr" (some (.obj [("min_variant_price", .num 7)]))) =
      ⟨some 7, some 0⟩ ∧
    (JSVal.getField (.obj [("min_variant_price", .num 7)]) "max_variant_price").truthy
      = false ∧
    (JSVal.getField (.obj [("min_variant_price", .num 7)]) "min").isUndef = true ∧
    (JSVal.getField (.obj [("min_variant_price", .num 7)]) "max").isUndef = true ∧
    (⟨some 7, some 0⟩ : PriceRange) ≠ ⟨some 0, some 0⟩ := by
  refine ⟨by decide, by decide, by decide, by decide, by decide⟩

/-! ### C5: the data-model invariant on price ranges -/

/-- The data-model invariant of §3: a well-formed price range has
`0 ≤ min ≤ max` (with `{0,0}` denoting "unknown"). -/
def rangeInv (r : PriceRange) : Prop :=
  ∃ m M, r.min = some m ∧ r.max = some M ∧ 0 ≤ m ∧ m ≤ M

/-- C5 (amended): `parsePriceRange` copies the input's numeric content
unchecked, so the invariant `0 ≤ min ≤ max` holds exactly when the input
satisfies it: unconditionally for falsy fields (`{0,0}`) and for free text
with at most one numeric token, and under the corresponding ordering
hypotheses for the structured formats and the two-token free-text form. -/
theorem parsePriceRange_invariant_conditional :
    (∀ v : RowVal, v.truthy = false → rangeInv (parsePriceRange v)) ∧
    (∀ (s : String) (a₁ a₂ : ℚ), s ≠ "" → 0 ≤ a₁ → a₁ ≤ a₂ →
      rangeInv (parsePriceRange (.strV s (some (shopifyObj a₁ a₂))))) ∧
    (∀ (s : String) (m M : ℚ), s ≠ "" → 0 ≤ m → m ≤ M →
      rangeInv (parsePriceRange (.strV s (some (minMaxObj m M))))) ∧
    (∀ s : String, s ≠ "" → extractTokens s.data = [] →
      rangeInv (parsePriceRange (.strV s none))) ∧
    (∀ (s t : String) (q : ℚ), s ≠ "" → extractTokens s.data = [t] →
      jsParseFloat t = some q → rangeInv (parsePriceRange (.strV s none))) ∧
    (∀ (s t₁ t₂ : String) (ts : List String) (q₁ q₂ : ℚ), s ≠ "" →
      extractTokens s.data = t₁ :: t₂ :: ts →
      jsParseFloat t₁ = some q₁ → jsParseFloat t₂ = some q₂ → q₁ ≤ q₂ →
      rangeInv (parsePriceRange (.strV s none))) := by
  refine ⟨?_, ?_, ?_, ?_, ?_, ?_⟩
  · intro v hv
    rw [parsePriceRange_eq_falsy v hv]
    exact ⟨0, 0, rfl, rfl, le_refl 0, le_refl 0⟩
  · intro s a₁ a₂ hs h0 hle
    rw [parsePriceRange_eq_shopify s a₁ a₂ hs]
    exact ⟨a₁, a₂, rfl, rfl, h0, hle⟩
  · intro s m M hs h0 hle
    rw [parsePriceRange_eq_minMax s m M hs]
    exact ⟨m, M, rfl, rfl, h0, hle⟩
  · intro s hs htok
    rw [parsePriceRange_eq_tokens s hs, htok]
    exact ⟨0, 0, rfl, rfl, le_refl 0, le_refl 0⟩
  · intro s t q hs htok hq
    rw [parsePriceRange_eq_tokens s hs, htok]
    show rangeInv ⟨jsParseFloat t, jsParseFloat t⟩
    rw [hq]
    have h0 : 0 ≤ q := by
      refine jsParseFloat_tok_nonneg t ?_ q hq
      intro c hc
      refine extractTokensAux_chars s.data [] (by simp) t ?_ c hc
      rw [show extractTokensAux s.data [] = extractTokens s.data from rfl, htok]
      exact List.mem_singleton.mpr rfl
    exact ⟨q, q, rfl, rfl, h0, le_refl q⟩
  · intro s t₁ t₂ ts q₁ q₂ hs htok hq₁ hq₂ hle
    rw [parsePriceRange_eq_tokens s hs, htok]
    show rangeInv ⟨jsParseFloat t₁, jsParseFloat t₂⟩
    rw [hq₁, hq₂]
    have h0 : 0 ≤ q₁ := by
      refine jsParseFloat_tok_nonneg t₁ ?_ q₁ hq₁
      intro c hc
      refine extractTokensAux_chars s.data [] (by simp) t₁ ?_ c hc
      rw [show extractTokensAux s.data [] = extractTokens s.data from rfl, htok]
      exact List.mem_cons_self ..
    exact ⟨q₁, q₂, rfl, rfl, h0, hle⟩

/-- Witness for C5: the conditional invariant at concrete inputs. -/
theorem parsePriceRange_invariant_witness :
    rangeInv (parsePriceRange (.strV "" none)) ∧
    rangeInv (parsePriceRange (.strV "pr" (some (minMaxObj 1 2)))) ∧
    rangeInv (parsePriceRange (.strV "12.50 - 20" none)) :=
  ⟨parsePriceRange_invariant_conditional.1 (.strV "" none) (by decide),
    parsePriceRange_invariant_conditional.2.2.1 "pr" 1 2 (by decide) (by norm_num)
      (by norm_num),
    parsePriceRange_invariant_conditional.2.2.2.2.2 "12.50 - 20" "12.50" "20" []
      (25/2) 20 (by decide) (by decide)
      (by simp +decide [jsParseFloat, parseSign, fracPart, digitsToNat]; norm_num)
      (by simp +decide [jsParseFloat, parseSign, fracPart, digitsToNat])
      (by norm_num)⟩

/-- Counterexample to C5 as stated: the well-typed input `{min: 5, max: 2}`
produces the range `{5, 2}` with `min > max`; `parsePriceRange` enforces no
ordering or sign check, so the data-model invariant does not hold for every
input. -/
theorem parsePriceRange_invariant_cex :
    parsePriceRange (.strV "pr" (some (minMaxObj 5 2))) = ⟨some 5, some 2⟩ ∧
    ¬ rangeInv ⟨some 5, some 2⟩ := by
  constructor
  · decide
  · rintro ⟨m, M, hm, hM, h0, hle⟩
    rw [Option.some.injEq] at hm hM
    subst hm
    subst hM
    norm_num at hle

/-! ## C6: filters as a strict conjunction -/

/-- The per-product conjunction of the five filter conditions, exactly as
each `applyFilters` pass tests them. -/
def matchesFilters (filters : SearchFilters) (p : Product) : Bool :=
  (match filters.vendor with
    | none => true
    | some v => if v == "" then true else includesCI p.vendor v) &&
  (match filters.productType with
    | none => true
    | some t => if t == "" then true else includesCI p.productType t) &&
  (match filters.minPrice with
    | none => true
    | some m => decide (m ≤ jsNumOr p.price (jsNumOr p.priceRange.max 0))) &&
  (match filters.maxPrice with
    | none => true
    | some m => decide (jsNumOr p.price (jsNumOr p.priceRange.min 0) ≤ m)) &&
  (match filters.inStock with
    | some true => decide (0 < p.totalInventory.getD 0) && !p.hasOutOfStockVariants.getD false
    | _ => true)

/-- Merging two sequential filter passes into one. -/
theorem filter_filter_and (l : List Product) (p q : Product → Bool) :
    (l.filter p).filter q = l.filter fun a => p a && q a := by
  induction l with
  | nil => rfl
  | cons x xs ih => by_cases hp : p x <;> by_cases hq : q x <;> simp [List.filter, hp, hq, ih]

set_option maxHeartbeats 2000000 in
/-- C6 (amended): the sequential filter passes of `applyFilters` equal one
pass with the strict conjunction of the five conditions, each independently
optional: `vendor`/`productType` as case-insensitive substring tests,
`minPrice` against `price || priceRange.max || 0`, `maxPrice` against
`price || priceRange.min || 0` (so an explicit *zero* single price falls
through to the range bound, as `||` skips falsy values), and `inStock = true`
as `totalInventory > 0 && !hasOutOfStockVariants` with `false`/absent
filtering nothing. -/
theorem applyFilters_strict_conjunction (products : List Product) (filters : SearchFilters) :
    SearchEngine.applyFilters products filters = products.filter (matchesFilters filters) := by
  unfold SearchEngine.applyFilters matchesFilters
  rcases filters with ⟨v, t, mi, ma, st⟩
  simp only []
  rcases v with _ | v <;> rcases t with _ | t <;> rcases mi with _ | mi <;>
    rcases ma with _ | ma <;> rcases st with _ | (_ | _) <;>
    simp [filter_filter_and, Bool.and_assoc, Bool.and_comm, Bool.and_left_comm] <;>
    (try split_ifs) <;>
    simp_all [filter_filter_and, Bool.and_assoc, Bool.and_comm, Bool.and_left_comm]

/-- A product with an explicit single price of `0` and a nontrivial range:
`price: 0, priceRange: {min: 5, max: 10}`. -/
def pZero : Product :=
  { id := "z", title := "Zero", vendor := "V", productType := "T", description := "",
    handle := "", status := "active", priceRange := ⟨some 5, some 10⟩, images := [],
    tags := [], createdAt := "", updatedAt := "", publishedAt := "", price := some 0 }

/-- The claim's effective price for a minimum-price filter: the explicit
single price when *present*, else the range's max. -/
def specEffPriceMin (p : Product) : ℚ :=
  match p.price with
  | some q => q
  | none => p.priceRange.max.getD 0

/-- Counterexample to C6 as stated: `pZero` has a present explicit price `0`,
so under the claim a `minPrice := 7` filter must drop it (`0 ≥ 7` fails); the
source computes `price || priceRange.max || 0 = 10` (JavaScript `||` skips
the falsy `0`) and keeps it. -/
theorem applyFilters_minPrice_cex :
    (SearchEngine.applyFilters [pZero] { minPrice := some 7 }).map Product.id = ["z"] ∧
    specEffPriceMin pZero = 0 ∧ ¬ ((7 : ℚ) ≤ 0) := by
  refine ⟨?_, rfl, by norm_num⟩
  have h : jsNumOr pZero.price (jsNumOr pZero.priceRange.max 0) = 10 := by
    simp [jsNumOr, truthyQ, pZero]
  have h7 : decide ((7 : ℚ) ≤ jsNumOr pZero.price (jsNumOr pZero.priceRange.max 0)) = true := by
    rw [h]
    norm_num
  simp [SearchEngine.applyFilters, List.filter_cons, h7]
  rfl

/-! ## C7: price sorting -/

/-- Unfolding of the `price-asc` preorder: `a` precedes `b` unless `b` has a
truthy key and `a` does not or exceeds it. -/
theorem ascRel_iff (a b : Product) :
    SearchEngine.ascRel a b ↔
      (truthyQ (SearchEngine.priceKeyAsc b) = true →
        truthyQ (SearchEngine.priceKeyAsc a) = true ∧
          (SearchEngine.priceKeyAsc a).getD 0 ≤ (SearchEngine.priceKeyAsc b).getD 0) := by
  unfold SearchEngine.ascRel SearchEngine.cmpAsc
  by_cases ha : truthyQ (SearchEngine.priceKeyAsc a) <;>
    by_cases hb : truthyQ (SearchEngine.priceKeyAsc b) <;>
    simp [ha, hb] <;> constructor <;> intro h <;> linarith

/-- Unfolding of the `price-desc` preorder. -/
theorem descRel_iff (a b : Product) :
    SearchEngine.descRel a b ↔
      (truthyQ (SearchEngine.priceKeyDesc b) = true →
        truthyQ (SearchEngine.priceKeyDesc a) = true ∧
          (SearchEngine.priceKeyDesc b).getD 0 ≤ (SearchEngine.priceKeyDesc a).getD 0) := by
  unfold SearchEngine.descRel SearchEngine.cmpDesc
  by_cases ha : truthyQ (SearchEngine.priceKeyDesc a) <;>
    by_cases hb : truthyQ (SearchEngine.priceKeyDesc b) <;>
    simp [ha, hb] <;> constructor <;> intro h <;> linarith

instance : IsTotal Product SearchEngine.ascRel where
  total a b := by
    rw [ascRel_iff, ascRel_iff]
    by_cases ha : truthyQ (SearchEngine.priceKeyAsc a) <;>
      by_cases hb : truthyQ (SearchEngine.priceKeyAsc b) <;> simp [ha, hb]
    exact le_total _ _

instance : IsTrans Product SearchEngine.ascRel where
  trans a b c hab hbc := by
    rw [ascRel_iff] at *
    intro hc
    obtain ⟨hb, hle⟩ := hbc hc
    obtain ⟨ha, hle'⟩ := hab hb
    exact ⟨ha, le_trans hle' hle⟩

instance : IsTotal Product SearchEngine.descRel where
  total a b := by
    rw [descRel_iff, descRel_iff]
    by_cases ha : truthyQ (SearchEngine.priceKeyDesc a) <;>
      by_cases hb : truthyQ (SearchEngine.priceKeyDesc b) <;> simp [ha, hb]
    exact le_total _ _

instance : IsTrans Product SearchEngine.descRel where
  trans a b c hab hbc := by
    rw [descRel_iff] at *
    intro hc
    obtain ⟨hb, hle⟩ := hbc hc
    obtain ⟨ha, hle'⟩ := hab hb
    exact ⟨ha, le_trans hle hle'⟩

/-- Whether a product counts as priceless for the ascending direction
(`!(a.price || a.priceRange?.min)`). -/
def pricelessAsc (p : Product) : Bool := !truthyQ (SearchEngine.priceKeyAsc p)

/-- Whether a product counts as priceless for the descending direction. -/
def pricelessDesc (p : Product) : Bool := !truthyQ (SearchEngine.priceKeyDesc p)

/-- Inserting an element that satisfies `q` — where `r x y` holds exactly for
the `q`-elements `y` — prepends it to the `q`-sublist. -/
theorem filter_orderedInsert_pos {r : Product → Product → Prop} [DecidableRel r]
    (q : Product → Bool) (x : Product) (hx : q x = true)
    (hr : ∀ y, r x y ↔ q y = true) :
    ∀ l : List Product, (l.orderedInsert r x).filter q = x :: l.filter q := by
  intro l
  induction l with
  | nil => simp [List.orderedInsert, hx]
  | cons y ys ih =>
    by_cases hxy : r x y
    · have hy : q y = true := (hr y).mp hxy
      simp [List.orderedInsert, hxy, hx, hy]
    · have hy : q y = false := by
        rcases hq : q y with _ | _
        · rfl
        · exact absurd ((hr y).mpr hq) hxy
      simp [List.orderedInsert, hxy, hy, ih]

/-- Inserting an element that fails `q` leaves the `q`-sublist unchanged. -/
theorem filter_orderedInsert_neg {r : Product → Product → Prop} [DecidableRel r]
    (q : Product → Bool) (x : Product) (hx : q x = false) :
    ∀ l : List Product, (l.orderedInsert r x).filter q = l.filter q := by
  intro l
  induction l with
  | nil => simp [List.orderedInsert, hx]
  | cons y ys ih =>
    by_cases hxy : r x y
    · simp [List.orderedInsert, hxy, hx]
    · rcases hy : q y with _ | _ <;> simp [List.orderedInsert, hxy, hy, ih]

/-- Stability of the modelled sort on the `q`-class: when `r x ·` holds for
the `q`-elements exactly, the `q`-elements keep their relative input order. -/
theorem filter_insertionSort (r : Product → Product → Prop) [DecidableRel r]
    (q : Product → Bool) (hq : ∀ a, q a = true → ∀ b, r a b ↔ q b = true) :
    ∀ l : List Product, (l.insertionSort r).filter q = l.filter q := by
  intro l
  induction l with
  | nil => rfl
  | cons x xs ih =>
    rcases hx : q x with _ | _
    · rw [List.insertionSort, filter_orderedInsert_neg q x hx]
      simp [hx, ih]
    · rw [List.insertionSort, filter_orderedInsert_pos q x hx (hq x hx)]
      simp [hx, ih]

/-- C7 (amended): `price-asc`/`price-desc` stably sort by the comparator keys
`price || priceRange.min` resp. `price || priceRange.max`: the output is a
permutation of the input, pairwise ordered by the comparator (so every record
whose direction key is falsy — absent, `NaN` or `0`, even when the other
range bound is a real price — comes after all records with a truthy key), and
the falsy-key records keep their relative input order (stability). -/
theorem applySorting_price_order (dateVal : String → ℤ) (l : List Product) :
    ((SearchEngine.applySorting dateVal l .priceAsc).Perm l ∧
      (SearchEngine.applySorting dateVal l .priceAsc).Sorted SearchEngine.ascRel ∧
      (SearchEngine.applySorting dateVal l .priceAsc).filter pricelessAsc =
        l.filter pricelessAsc ∧
      (SearchEngine.applySorting dateVal l .priceAsc).Pairwise
        (fun a b => pricelessAsc a = true → pricelessAsc b = true)) ∧
    ((SearchEngine.applySorting dateVal l .priceDesc).Perm l ∧
      (SearchEngine.applySorting dateVal l .priceDesc).Sorted SearchEngine.descRel ∧
      (SearchEngine.applySorting dateVal l .priceDesc).filter pricelessDesc =
        l.filter pricelessDesc ∧
      (SearchEngine.applySorting dateVal l .priceDesc).Pairwise
        (fun a b => pricelessDesc a = true → pricelessDesc b = true)) := by
  have hqa : ∀ a, pricelessAsc a = true →
      ∀ b, SearchEngine.ascRel a b ↔ pricelessAsc b = true := by
    intro a ha b
    rw [ascRel_iff]
    unfold pricelessAsc at *
    rcases hb : truthyQ (SearchEngine.priceKeyAsc b) with _ | _ <;>
      simp [hb] at ha ⊢
    intro h
    rw [ha] at h
    cases h
  have hqd : ∀ a, pricelessDesc a = true →
      ∀ b, SearchEngine.descRel a b ↔ pricelessDesc b = true := by
    intro a ha b
    rw [descRel_iff]
    unfold pricelessDesc at *
    rcases hb : truthyQ (SearchEngine.priceKeyDesc b) with _ | _ <;>
      simp [hb] at ha ⊢
    intro h
    rw [ha] at h
    cases h
  refine ⟨⟨List.perm_insertionSort _ l, List.sorted_insertionSort _ l,
      filter_insertionSort _ _ hqa l, ?_⟩,
    ⟨List.perm_insertionSort _ l, List.sorted_insertionSort _ l,
      filter_insertionSort _ _ hqd l, ?_⟩⟩
  · refine (List.sorted_insertionSort SearchEngine.ascRel l).imp ?_
    intro a b hab ha
    exact ((hqa a ha b).mp hab)
  · refine (List.sorted_insertionSort SearchEngine.descRel l).imp ?_
    intro a b hab ha
    exact ((hqd a ha b).mp hab)

/-- A product with no single price and range `{min: 0, max: 100}`: real price
information, but a falsy ascending key. -/
def pA0 : Product :=
  { id := "A", title := "A", vendor := "", productType := "", description := "",
    handle := "", status := "active", priceRange := ⟨some 0, some 100⟩, images := [],
    tags := [], createdAt := "", updatedAt := "", publishedAt := "" }

/-- A product with range `{min: 50, max: 60}`. -/
def pB50 : Product :=
  { id := "B", title := "B", vendor := "", productType := "", description := "",
    handle := "", status := "active", priceRange := ⟨some 50, some 60⟩, images := [],
    tags := [], createdAt := "", updatedAt := "", publishedAt := "" }

/-- The claim's effective minimum price: single price if present, else the
range's min. -/
def specEffMinAsc (p : Product) : ℚ :=
  match p.price with
  | some q => q
  | none => p.priceRange.min.getD 0

/-- Counterexample to C7 as stated: `pA0` has price information (`max = 100`)
and the claim's effective minimum price `0 < 50`, so ordering "by effective
minimum price ascending" must put it first and must not treat it as "lacking
any price information"; the source's falsy test on `price || priceRange.min`
classifies it as priceless and sorts it *after* `pB50`. -/
theorem applySorting_priceAsc_cex :
    (SearchEngine.applySorting dv0 [pA0, pB50] .priceAsc).map Product.id = ["B", "A"] ∧
    (SearchEngine.applySorting dv0 [pA0, pB50] .priceAsc).map specEffMinAsc = [50, 0] ∧
    ¬ ((50 : ℚ) ≤ 0) := by
  have hsort : (SearchEngine.applySorting dv0 [pA0, pB50] .priceAsc) = [pB50, pA0] := by
    simp [SearchEngine.applySorting, List.insertionSort, List.orderedInsert,
      SearchEngine.ascRel, SearchEngine.cmpAsc, SearchEngine.priceKeyAsc, jsOrQ,
      truthyQ, pA0, pB50]
  rw [hsort]
  refine ⟨rfl, ?_, by norm_num⟩
  show [specEffMinAsc pB50, specEffMinAsc pA0] = [(50 : ℚ), 0]
  rfl

/-! ## C8: pagination -/

/-- Characterisation of `Math.ceil(t / l)` as computed by `(t + l - 1) / l`:
the unique value `q` with `t ≤ q·l < t + l`. -/
theorem ceilDiv_spec (t l : ℕ) (hl : 1 ≤ l) :
    t ≤ (t + l - 1) / l * l ∧ (t + l - 1) / l * l < t + l := by
  by_cases ht : t = 0
  · subst ht
    rw [Nat.zero_add, Nat.div_eq_of_lt (by omega)]
    omega
  · have h1 : t + l - 1 = (t - 1) + l := by omega
    rw [h1, Nat.add_div_right _ (by omega : 0 < l), Nat.succ_mul]
    have hdm := Nat.div_add_mod (t - 1) l
    have hml := Nat.mod_lt (t - 1) (show 0 < l by omega)
    have hc : (t - 1) / l * l = l * ((t - 1) / l) := Nat.mul_comm _ _
    omega

/-- C8: `search` paginates the filtered and sorted candidate list with
`offset = (page-1)·limit`, reports `total`, `page` and `limit` faithfully,
computes `totalPages = ⌈total/limit⌉` (characterised by the two
inequalities), and yields an empty item list on out-of-range pages while the
other fields stay correct. -/
theorem search_pagination (e : SearchEngine) (dateVal : String → ℤ) (query : String)
    (filters : SearchFilters) (page limit : ℕ) (sortBy : SearchEngine.SortBy)
    (elapsed : ℕ) (hp : 1 ≤ page) (hl : 1 ≤ limit) :
    (e.search dateVal query filters page limit sortBy elapsed).products =
      ((SearchEngine.applySorting dateVal
          (SearchEngine.applyFilters
            (if jsTrim query == "" then e.products else e.fuse query) filters)
          sortBy).drop ((page - 1) * limit)).take limit ∧
    (e.search dateVal query filters page limit sortBy elapsed).total =
      (SearchEngine.applySorting dateVal
        (SearchEngine.applyFilters
          (if jsTrim query == "" then e.products else e.fuse query) filters)
        sortBy).length ∧
    (e.search dateVal query filters page limit sortBy elapsed).page = page ∧
    (e.search dateVal query filters page limit sortBy elapsed).limit = limit ∧
    (e.search dateVal query filters page limit sortBy elapsed).total ≤
      (e.search dateVal query filters page limit sortBy elapsed).totalPages * limit ∧
    (e.search dateVal query filters page limit sortBy elapsed).totalPages * limit <
      (e.search dateVal query filters page limit sortBy elapsed).total + limit ∧
    ((SearchEngine.applySorting dateVal
        (SearchEngine.applyFilters
          (if jsTrim query == "" then e.products else e.fuse query) filters)
        sortBy).length ≤ (page - 1) * limit →
      (e.search dateVal query filters page limit sortBy elapsed).products = []) := by
  refine ⟨rfl, rfl, rfl, rfl, ?_, ?_, ?_⟩
  · exact (ceilDiv_spec
      (SearchEngine.applySorting dateVal
        (SearchEngine.applyFilters
          (if jsTrim query == "" then e.products else e.fuse query) filters)
        sortBy).length limit hl).1
  · exact (ceilDiv_spec
      (SearchEngine.applySorting dateVal
        (SearchEngine.applyFilters
          (if jsTrim query == "" then e.products else e.fuse query) filters)
        sortBy).length limit hl).2
  · intro hout
    show (List.take limit (List.drop _ _)) = []
    rw [List.drop_eq_nil_of_le hout, List.take_nil]

/-- Witness for C8 on the four-fixture engine: page 1 of limit 2 returns the
first two records with `total = 4` and `totalPages = 2`, page 2 the remaining
two, and the out-of-range page 10 an empty list with `total` still 4 (the
empty-page conjunct instantiates the pagination theorem at page 10). -/
theorem search_pagination_witness :
    (mockEngine.search dv0 "" {} 1 2 .relevance 0).products.map Product.id = ["1", "2"] ∧
    (mockEngine.search dv0 "" {} 1 2 .relevance 0).total = 4 ∧
    (mockEngine.search dv0 "" {} 1 2 .relevance 0).totalPages = 2 ∧
    (mockEngine.search dv0 "" {} 1 2 .relevance 0).page = 1 ∧
    (mockEngine.search dv0 "" {} 1 2 .relevance 0).limit = 2 ∧
    (mockEngine.search dv0 "" {} 2 2 .relevance 0).products.map Product.id = ["3", "4"] ∧
    (mockEngine.search dv0 "" {} 10 2 .relevance 0).products = [] ∧
    (mockEngine.search dv0 "" {} 10 2 .relevance 0).total = 4 :=
  ⟨rfl, rfl, rfl, rfl, rfl, rfl,
    (search_pagination mockEngine dv0 "" {} 10 2 .relevance 0 (by norm_num)
          (by norm_num)).2.2.2.2.2.2 (by decide),
    rfl⟩

/-! ## C9: read-only, deterministic queries -/

/-- C9: query evaluation is read-only and deterministic: any sequence of
`search` calls leaves the engine state unchanged (`applySorting` sorts a
copy, and nothing reassigns the collection); an empty-query relevance search
with no filters and a large enough limit returns the collection in its
original order; and two `search` calls with equal query, filters, page,
limit and sort key agree on every field except the measured processing
time. -/
theorem search_readonly_deterministic :
    (∀ (e : SearchEngine) (dateVal : String → ℤ) (calls : List SearchEngine.SearchCall),
      SearchEngine.runSearches e dateVal calls = e) ∧
    (∀ (e : SearchEngine) (dateVal : String → ℤ) (limit elapsed : ℕ),
      e.products.length ≤ limit →
      (e.search dateVal "" {} 1 limit .relevance elapsed).products = e.products) ∧
    (∀ (e : SearchEngine) (dateVal : String → ℤ) (q : String) (f : SearchFilters)
        (page limit : ℕ) (sb : SearchEngine.SortBy) (t₁ t₂ : ℕ),
      (e.search dateVal q f page limit sb t₁).products =
          (e.search dateVal q f page limit sb t₂).products ∧
        (e.search dateVal q f page limit sb t₁).total =
          (e.search dateVal q f page limit sb t₂).total ∧
        (e.search dateVal q f page limit sb t₁).page =
          (e.search dateVal q f page limit sb t₂).page ∧
        (e.search dateVal q f page limit sb t₁).limit =
          (e.search dateVal q f page limit sb t₂).limit ∧
        (e.search dateVal q f page limit sb t₁).totalPages =
          (e.search dateVal q f page limit sb t₂).totalPages) := by
  refine ⟨?_, ?_, ?_⟩
  · intro e dateVal calls
    induction calls with
    | nil => rfl
    | cons c cs ih => exact ih
  · intro e dateVal limit elapsed hlen
    have h0 : (e.search dateVal "" {} 1 limit .relevance elapsed).products =
        List.take limit (List.drop ((1 - 1) * limit) e.products) := rfl
    rw [h0]
    norm_num
    exact hlen
  · intro e dateVal q f page limit sb t₁ t₂
    exact ⟨rfl, rfl, rfl, rfl, rfl⟩

/-- Witness for C9: an empty-query relevance search over the fixtures with
`limit = 4` returns the collection in its original order. -/
theorem search_readonly_deterministic_witness :
    (mockEngine.search dv0 "" {} 1 4 .relevance 0).products = mockEngine.products :=
  search_readonly_deterministic.2.1 mockEngine dv0 4 0 (by decide)

/-! ## C10: search suggestions -/

/-- Soundness of first-occurrence deduplication: the output is duplicate-free,
avoids `seen`, and is a subset of the input. -/
theorem dedupFirst_sound (l seen : List String) :
    (SearchEngine.dedupFirst seen l).Nodup ∧
      ∀ x ∈ SearchEngine.dedupFirst seen l, x ∉ seen ∧ x ∈ l := by
  induction l generalizing seen with
  | nil => exact ⟨List.nodup_nil, by simp [SearchEngine.dedupFirst]⟩
  | cons y ys ih =>
    unfold SearchEngine.dedupFirst
    by_cases hy : y ∈ seen
    · rw [if_pos hy]
      refine ⟨(ih seen).1, ?_⟩
      intro x hx
      obtain ⟨hs, hm⟩ := (ih seen).2 x hx
      exact ⟨hs, List.mem_cons_of_mem _ hm⟩
    · rw [if_neg hy]
      have ih' := ih (y :: seen)
      constructor
      · refine List.nodup_cons.mpr ⟨?_, ih'.1⟩
        intro hxy
        exact (ih'.2 y hxy).1 (List.mem_cons_self ..)
      · intro x hx
        rcases List.mem_cons.mp hx with rfl | hx'
        · exact ⟨hy, List.mem_cons_self ..⟩
        · obtain ⟨hs, hm⟩ := ih'.2 x hx'
          exact ⟨fun hxs => hs (List.mem_cons_of_mem _ hxs), List.mem_cons_of_mem _ hm⟩

/-- C10: every suggestion is the verbatim title, vendor or product type of
some product in the collection; the list is duplicate-free; its length never
exceeds `limit`; and a whitespace-only query yields the empty list even at
length ≥ 2 (the guard tests `!query.trim()` before the length). -/
theorem getSearchSuggestions_sound (e : SearchEngine) (query : String) (limit : ℕ) :
    (∀ s ∈ e.getSearchSuggestions query limit,
      ∃ p ∈ e.products, s = p.title ∨ s = p.vendor ∨ s = p.productType) ∧
    (e.getSearchSuggestions query limit).Nodup ∧
    (e.getSearchSuggestions query limit).length ≤ limit ∧
    (jsTrim query = "" → e.getSearchSuggestions query limit = []) := by
  unfold SearchEngine.getSearchSuggestions
  by_cases hguard : (jsTrim query == "" || decide (query.length < 2)) = true
  · rw [if_pos hguard]
    exact ⟨by simp, List.nodup_nil, by simp, fun _ => rfl⟩
  · rw [if_neg hguard]
    refine ⟨?_, ?_, ?_, ?_⟩
    · intro s hs
      have hs' := (dedupFirst_sound _ _).2 s (List.mem_of_mem_take hs)
      rcases List.mem_append.mp hs'.2 with h | h
      · rcases List.mem_append.mp h with h' | h'
        · obtain ⟨p, hp, rfl⟩ := List.mem_map.mp h'
          exact ⟨p, (List.mem_filter.mp hp).1, Or.inl rfl⟩
        · obtain ⟨p, hp, rfl⟩ := List.mem_map.mp h'
          exact ⟨p, (List.mem_filter.mp hp).1, Or.inr (Or.inl rfl)⟩
      · obtain ⟨p, hp, rfl⟩ := List.mem_map.mp h
        exact ⟨p, (List.mem_filter.mp hp).1, Or.inr (Or.inr rfl)⟩
    · exact (dedupFirst_sound _ _).1.sublist (List.take_sublist _ _)
    · exact List.length_take_le _ _
    · intro htrim
      exfalso
      apply hguard
      simp [htrim]

/-- Witness for C10: on the fixture engine a whitespace-only two-character
query yields no suggestions (instantiating the soundness theorem), and a real
query respects the limit. -/
theorem getSearchSuggestions_sound_witness :
    mockEngine.getSearchSuggestions "  " 5 = [] ∧
    (mockEngine.getSearchSuggestions "ap" 2).length ≤ 2 :=
  ⟨(getSearchSuggestions_sound mockEngine "  " 5).2.2.2 (by decide),
    (getSearchSuggestions_sound mockEngine "ap" 2).2.2.1⟩

/-! ## C2: persistence failure semantics -/

/-- C2 (amended): when `saveSearchIndex` fails at or after the temp write and
*before* the atomic rename — a temp-write error, a re-read I/O error, or a
corrupted re-read whose `products` property is not an array (the only way
structural validation can fail: the check accepts any readback with an array
`products`, an empty array included, and never inspects `metadata`) — then,
with the best-effort cleanup succeeding: the original error is raised, the
temp file is gone, the step-1 backup is not further modified, the old-backup
file is untouched, and the canonical file keeps its pre-run content — or, if
canonical was missing while a backup exists, it is restored from the backup
(when the restore copy succeeds). -/
theorem saveSearchIndex_prerename_failure (s : FsState) (env : PersistEnv)
    (art : IndexArtifact) (hb : env.failBackupCopy = false)
    (hc : env.failCleanupUnlink = false)
    (hf : env.failWriteTemp = true ∨ env.readTemp = .ioError ∨
      env.readTemp = .corrupt false) :
    (env.failWriteTemp = true →
      (saveSearchIndex s env art).1 = .error .writeTempFailed) ∧
    (env.failWriteTemp = false → env.readTemp = .ioError →
      (saveSearchIndex s env art).1 = .error .readTempFailed) ∧
    (env.failWriteTemp = false → env.readTemp = .corrupt false →
      (saveSearchIndex s env art).1 = .error .invalidIndex) ∧
    (saveSearchIndex s env art).2.temp = none ∧
    (saveSearchIndex s env art).2.backup =
      (if s.canonical.isSome then s.canonical else s.backup) ∧
    (saveSearchIndex s env art).2.old = s.old ∧
    (s.canonical.isSome → (saveSearchIndex s env art).2.canonical = s.canonical) ∧
    (s.canonical = none → s.backup.isSome → env.failRestore = false →
      (saveSearchIndex s env art).2.canonical = s.backup) ∧
    (s.canonical = none → s.backup = none →
      (saveSearchIndex s env art).2.canonical = none) := by
  rcases s with ⟨c, b, o, t⟩
  unfold saveSearchIndex persistCatch
  rcases hr : env.failRestore with _ | _ <;>
    rcases hw : env.failWriteTemp with _ | _ <;>
    rcases c with _ | c <;> rcases b with _ | b <;> rcases t with _ | t <;>
    rcases hf with hf | hf | hf <;>
    simp_all

/-- Fixture metadata for the persistence counterexample. -/
def metaFix : ProcessingMetadata := ⟨0, [], [], "t0"⟩

/-- The pre-run canonical artifact (no products). -/
def oldArt : IndexArtifact := ⟨[], metaFix⟩

/-- The newly built artifact (one product). -/
def newArt : IndexArtifact := ⟨[mp1], metaFix⟩

/-- Witness for C2 at a concrete run: validation fails on a corrupted re-read;
the error propagates, temp is removed, canonical keeps the old artifact and
the backup holds the step-1 copy. -/
theorem saveSearchIndex_prerename_failure_witness :
    (saveSearchIndex ⟨some oldArt, none, none, none⟩ { readTemp := .corrupt false }
        newArt).1 = .error .invalidIndex ∧
    (saveSearchIndex ⟨some oldArt, none, none, none⟩ { readTemp := .corrupt false }
        newArt).2.temp = none ∧
    (saveSearchIndex ⟨some oldArt, none, none, none⟩ { readTemp := .corrupt false }
        newArt).2.canonical = some oldArt ∧
    (saveSearchIndex ⟨some oldArt, none, none, none⟩ { readTemp := .corrupt false }
        newArt).2.backup = some oldArt := by
  have h := saveSearchIndex_prerename_failure ⟨some oldArt, none, none, none⟩
    { readTemp := .corrupt false } newArt rfl rfl (Or.inr (Or.inr rfl))
  refine ⟨h.2.2.1 rfl rfl, h.2.2.2.1, h.2.2.2.2.2.2.1 rfl, ?_⟩
  have hb := h.2.2.2.2.1
  simpa using hb

/-- Counterexample to C2 as stated: a failure *after* the rename (the
`statSync` size probe) is "at or after the temp-write step" and raises the
original error, but the canonical file then holds the *new* content, not its
pre-run content, and the step-1 backup has been rotated away to `old` — the
claim's conclusions fail for post-rename failures.  (Separately, its
validation parenthetical is wrong: an empty `products` array passes the
source's check, as the amended theorem's readback model records.) -/
theorem saveSearchIndex_postrename_cex :
    (saveSearchIndex ⟨some oldArt, none, none, none⟩ { failStat := true } newArt).1 =
      .error .statFailed ∧
    (saveSearchIndex ⟨some oldArt, none, none, none⟩ { failStat := true }
        newArt).2.canonical.map (fun a => a.products.length) = some 1 ∧
    (some oldArt).map (fun a : IndexArtifact => a.products.length) = some 0 ∧
    (saveSearchIndex ⟨some oldArt, none, none, none⟩ { failStat := true }
        newArt).2.backup = none ∧
    (saveSearchIndex ⟨some oldArt, none, none, none⟩ { failStat := true }
        newArt).2.old.isSome = true := by
  refine ⟨rfl, rfl, rfl, rfl, rfl⟩

/-! ## C3: the staleness decision table -/

/-- Whether the existing index file fails to parse as a valid artifact. -/
def indexParseFails (env : StartupEnv) : Bool :=
  match env.indexFile with
  | .invalid => true
  | _ => false

/-- The claim's decision table, verbatim: readOnly → load; force → rebuild;
index missing → rebuild; index older than source → rebuild; index age beyond
the bound → rebuild; size below the threshold → rebuild; parse failure →
rebuild; otherwise load. -/
def claimedResolve (readOnly force : Bool) (env : StartupEnv) (maxAgeHours : ℕ) :
    ResolveDecision :=
  if readOnly then .readOnlyLoad
  else if force then .rebuild
  else if !env.indexExists then .rebuild
  else if env.indexMtime < env.csvMtime then .rebuild
  else if maxAgeHours * 3600000 < env.now - env.indexMtime then .rebuild
  else if env.indexSize < 1000 then .rebuild
  else if indexParseFails env then .rebuild
  else .loadExisting

/-- The amended decision table: the source additionally never rebuilds when
the CSV source file is missing (checked right after `force`), and has no
parse-failure arm — an unparsable index is a fatal load error, not a rebuild
trigger. -/
def amendedResolve (readOnly force : Bool) (env : StartupEnv) (maxAgeHours : ℕ) :
    ResolveDecision :=
  if readOnly then .readOnlyLoad
  else if force then .rebuild
  else if !env.csvExists then .loadExisting
  else if !env.indexExists then .rebuild
  else if env.indexMtime < env.csvMtime then .rebuild
  else if maxAgeHours * 3600000 < env.now - env.indexMtime then .rebuild
  else if env.indexSize < 1000 then .rebuild
  else .loadExisting

/-- C3 (amended): the source's staleness resolution equals the amended
first-true-wins table (readOnly → load-or-fail; force → rebuild; *source CSV
missing → never rebuild*; index missing → rebuild; index older than source →
rebuild; age beyond `maxAgeHours` → rebuild; size below 1000 bytes →
rebuild; otherwise load as-is — parse failure is not a rebuild trigger), and
`ensureSearchIndex` acts on that decision: in read-only mode it loads or
fails fatally, on `rebuild` it returns the generation outcome, and on
`loadExisting` it returns the loaded artifact (failing fatally when the file
does not parse). -/
theorem ensureSearchIndex_decision_table :
    (∀ (ro f : Bool) (env : StartupEnv) (a : ℕ),
      codeResolve ro f env a = amendedResolve ro f env a) ∧
    (∀ (f : Bool) (env : StartupEnv) (a : ℕ)
        (g : Except StartupError (List Product)),
      ensureSearchIndex true f env a g = (loadIndex env).map (·, false)) ∧
    (∀ (f : Bool) (env : StartupEnv) (a : ℕ)
        (g : Except StartupError (List Product)),
      codeResolve false f env a = .rebuild →
      ensureSearchIndex false f env a g =
        (match g with
          | .error e => .error e
          | .ok ps => .ok (ps, true))) ∧
    (∀ (f : Bool) (env : StartupEnv) (a : ℕ)
        (g : Except StartupError (List Product)),
      codeResolve false f env a = .loadExisting →
      ensureSearchIndex false f env a g = (loadIndex env).map (·, false)) := by
  refine ⟨?_, ?_, ?_, ?_⟩
  · intro ro f env a
    rcases env with ⟨cs, file, cm, im, now, sz⟩
    rcases ro with _ | _ <;> rcases f with _ | _ <;> rcases cs with _ | _ <;>
      rcases file with _ | _ | ps | ps <;>
      simp [codeResolve, amendedResolve, shouldRegenerateIndex,
        StartupEnv.indexExists] <;>
      split_ifs <;> simp_all
  · intro f env a g
    rfl
  · intro f env a g h
    unfold ensureSearchIndex
    rw [if_neg (by simp)]
    by_cases hcond : (f || shouldRegenerateIndex env a) = true
    · rw [if_pos hcond]
    · exfalso
      unfold codeResolve at h
      rw [if_neg (by simp), if_neg hcond] at h
      cases h
  · intro f env a g h
    unfold ensureSearchIndex
    rw [if_neg (by simp)]
    by_cases hcond : (f || shouldRegenerateIndex env a) = true
    · exfalso
      unfold codeResolve at h
      rw [if_neg (by simp), if_pos hcond] at h
      cases h
    · rw [if_neg hcond]

/-- An environment with a fresh, plausible, *unparsable* index file and an
existing CSV source. -/
def envInvalid : StartupEnv := ⟨true, .invalid, 0, 5, 5, 5000⟩

/-- A fresh, plausible, valid index file in the object format. -/
def envFresh : StartupEnv := ⟨true, .validObj [mp1], 0, 5, 5, 5000⟩

/-- Witness for C3 at concrete environments: a fresh valid index is loaded
as-is (no rebuild), and a missing index with an existing CSV triggers a
rebuild whose products are served. -/
theorem ensureSearchIndex_decision_table_witness :
    codeResolve false false envFresh 24 = .loadExisting ∧
    ensureSearchIndex false false envFresh 24 (.ok []) = .ok ([mp1], false) ∧
    codeResolve false false ⟨true, .missing, 0, 0, 0, 0⟩ 24 = .rebuild ∧
    ensureSearchIndex false false ⟨true, .missing, 0, 0, 0, 0⟩ 24 (.ok [mp2]) =
      .ok ([mp2], true) := by
  refine ⟨rfl, ?_, rfl, ?_⟩
  · rw [ensureSearchIndex_decision_table.2.2.2 false envFresh 24 (.ok []) rfl]
    rfl
  · rw [ensureSearchIndex_decision_table.2.2.1 false ⟨true, .missing, 0, 0, 0, 0⟩ 24
      (.ok [mp2]) rfl]

/-- Counterexample to C3 as stated: with the source CSV present and an index
file that is fresh, large enough, but *unparsable*, the claim's table reaches
its parse-failure arm and rebuilds; the source has no such arm — it decides
`loadExisting` and then fails fatally in `loadIndex`.  (The same environment
with `csvExists := false` and a missing index also separates the tables: the
claim rebuilds on a missing index, the source never rebuilds without a
source file.) -/
theorem ensureSearchIndex_claim_cex :
    claimedResolve false false envInvalid 24 = .rebuild ∧
    codeResolve false false envInvalid 24 = .loadExisting ∧
    ensureSearchIndex false false envInvalid 24 (.ok [mp1]) = .error .loadFailed := by
  refine ⟨rfl, rfl, rfl⟩
